import Mathlib

/-!
Shallow embedding of the installment-payment reconciliation engine of the
ADC-PRO-2026 repository.

The embedded code comes from:
* `src/context/AdminContext.tsx` — `recalculateInstallments`,
  `recordInstallmentPayment`, `reversePayment`;
* `src/app/api/stripe/webhook/route.ts` — `safeEqualsHex`,
  `verifyStripeSignature`, and the order-reconciliation body of `POST`;
* the Mercado Pago webhook route — the order-reconciliation body of `POST`
  (structurally the same reconciler, with provider-specific identifier
  sources, method names, fallback-id prefixes and order-level patch).

Modelling conventions: JavaScript numbers carrying currency are embedded as
rationals (ℚ); Firestore documents become Lean structures; each webhook
handler's read-modify-write on an order document becomes a pure function
`Order → Order`; the platform primitives `Buffer.from(·,'utf8')` length and
`crypto.timingSafeEqual` are modelled on `String.utf8ByteSize`, with
`timingSafeEqual` returning `none` where the Node primitive would throw
(unequal buffer lengths); `crypto.createHmac('sha256',·)` is an abstract
function parameter, since the digest itself is a platform primitive.
-/

namespace ADCPro

/-- Payment status values used by the repository (`'Pago' | 'Pendente' | 'Falhou'`). -/
inductive PayStatus where
  | Pago
  | Pendente
  | Falhou
deriving DecidableEq, Repr

/-- A `Payment` record as stored inside an installment. -/
structure Payment where
  id : String
  amount : ℚ
  date : String
  method : String
  receivedBy : String
deriving DecidableEq, Repr

/-- An `Installment` record (`installmentDetails` element). -/
structure Installment where
  id : String
  installmentNumber : ℤ
  amount : ℚ
  dueDate : String
  status : PayStatus
  paidAmount : ℚ
  payments : List Payment
  paymentDate : Option String
deriving DecidableEq, Repr

/-- The order document fields relevant to the reconciliation engine, plus a
few representative unrelated fields (`date`, `total`, `paymentMethod`,
`installments`) used to state frame properties. -/
structure Order where
  id : String
  date : String
  total : ℚ
  paymentMethod : String
  paymentStatus : PayStatus
  paymentProvider : Option String
  paymentSessionId : Option String
  installments : ℤ
  installmentDetails : List Installment
deriving DecidableEq, Repr

/-! ### Schedule builder (`recalculateInstallments`, AdminContext.tsx lines 59-87) -/

/-- JavaScript `Math.round`: round half toward positive infinity. -/
def jsRound (x : ℚ) : ℤ := ⌊x + 1/2⌋

/-- One installment produced by the loop body of `recalculateInstallments`:
0-based index `i`, value `cents` in integer cents.  The date library call
`addMonths(new Date(firstDueDate), i).toISOString()` is the abstract
parameter `addMonthsISO`. -/
def mkScheduledInstallment (addMonthsISO : String → ℕ → String)
    (orderId firstDueDate : String) (i cents : ℕ) : Installment :=
  { id := "inst-" ++ orderId ++ "-" ++ toString (i + 1)
    installmentNumber := (i : ℤ) + 1
    amount := (cents : ℚ) / 100
    dueDate := addMonthsISO firstDueDate i
    status := .Pendente
    paidAmount := 0
    payments := []
    paymentDate := none }

/-- The `for` loop of `recalculateInstallments`: `k` iterations remain, `i`
is the current 0-based index, `rem` the remaining extra cents (the source's
mutable `remainderInCents`). -/
def scheduleLoop (addMonthsISO : String → ℕ → String)
    (orderId firstDueDate : String) (base : ℕ) :
    ℕ → ℕ → ℕ → List Installment
  | 0, _, _ => []
  | k + 1, i, rem =>
      let extra : ℕ := if 0 < rem then 1 else 0
      mkScheduledInstallment addMonthsISO orderId firstDueDate i (base + extra) ::
        scheduleLoop addMonthsISO orderId firstDueDate base k (i + 1) (rem - extra)

/-- `recalculateInstallments` (AdminContext.tsx lines 59-87): split `total`
into `installmentsCount` integer-cent installments, first installments
absorbing the remainder cents. -/
def recalculateInstallments (addMonthsISO : String → ℕ → String)
    (total : ℚ) (installmentsCount : ℤ) (orderId firstDueDate : String) :
    List Installment :=
  if installmentsCount ≤ 0 ∨ total < 0 then []
  else
    let totalInCents : ℕ := (jsRound (total * 100)).toNat
    let count : ℕ := installmentsCount.toNat
    let base : ℕ := totalInCents / count
    let rem : ℕ := totalInCents % count
    scheduleLoop addMonthsISO orderId firstDueDate base count 0 rem

/-! ### JavaScript string primitives

The webhook signature code uses the JS string methods `split(',')`, `trim()`,
`startsWith` and `slice`.  They are modelled here over `String.data` (lists of
characters) so that every definition reduces in the kernel. -/

/-- `String.prototype.split(',')` — split on every comma, keeping empty pieces. -/
def jsSplitCommaAux : List Char → List Char → List String
  | [], acc => [String.mk acc.reverse]
  | c :: rest, acc =>
      if c = ',' then String.mk acc.reverse :: jsSplitCommaAux rest []
      else jsSplitCommaAux rest (c :: acc)

def jsSplitComma (s : String) : List String := jsSplitCommaAux s.data []

/-- Drop leading whitespace characters. -/
def dropLeadingSpace : List Char → List Char
  | [] => []
  | c :: rest => if c.isWhitespace then dropLeadingSpace rest else c :: rest

/-- `String.prototype.trim()`. -/
def jsTrim (s : String) : String :=
  String.mk ((dropLeadingSpace (dropLeadingSpace s.data).reverse).reverse)

/-- `String.prototype.startsWith(pre)`. -/
def jsStartsWith (s pre : String) : Bool := pre.data.isPrefixOf s.data

/-- `String.prototype.slice(n)` for a non-negative start index. -/
def jsSlice (s : String) (n : ℕ) : String := String.mk (s.data.drop n)

/-! ### Signature verifier (`safeEqualsHex`, `verifyStripeSignature`,
route.ts lines 34-56) -/

/-- Node's `crypto.timingSafeEqual` on the UTF-8 buffers of two strings: a
constant-time byte comparison that **throws** when the buffers have different
lengths; the throwing case is modelled as `none`. -/
def timingSafeEqual (a b : String) : Option Bool :=
  if a.utf8ByteSize = b.utf8ByteSize then some (a = b) else none

/-- `safeEqualsHex` (route.ts lines 34-39): compare two strings as UTF-8
buffers, returning `false` on a length mismatch before invoking
`timingSafeEqual`. -/
def safeEqualsHex (a b : String) : Option Bool :=
  if a.utf8ByteSize ≠ b.utf8ByteSize then some false
  else timingSafeEqual a b

/-- `parts` of `verifyStripeSignature`: split the header on commas, trim each
piece, keep the non-empty ones (`.filter(Boolean)`). -/
def signatureParts (signatureHeader : String) : List String :=
  ((jsSplitComma signatureHeader).map jsTrim).filter (fun p => p ≠ "")

/-- `timestamp` of `verifyStripeSignature`:
`parts.find(p => p.startsWith('t='))?.slice(2) || ''`. -/
def signatureTimestamp (signatureHeader : String) : String :=
  (((signatureParts signatureHeader).find? (fun p => jsStartsWith p ("t="))).map
    (fun p => jsSlice p 2)).getD ""

/-- `signatures` of `verifyStripeSignature`:
`parts.filter(p => p.startsWith('v1=')).map(p => p.slice(3))`. -/
def signatureCandidates (signatureHeader : String) : List String :=
  (((signatureParts signatureHeader).filter (fun p => jsStartsWith p ("v1="))).map
    (fun p => jsSlice p 3))

/-- `signatures.some(sig => safeEqualsHex(sig, expected))`, propagating the
`none` (exception) case of `safeEqualsHex`. -/
def someMatches (expected : String) : List String → Option Bool
  | [] => some false
  | sig :: rest => do
      let b ← safeEqualsHex sig expected
      if b then some true else someMatches expected rest

/-- `verifyStripeSignature` (route.ts lines 41-56).  `hmacSha256Hex secret
msg` abstracts `createHmac('sha256', secret).update(msg).digest('hex')`. -/
def verifyStripeSignature (hmacSha256Hex : String → String → String)
    (payload signatureHeader webhookSecret : String) : Option Bool :=
  let timestamp := signatureTimestamp signatureHeader
  let signatures := signatureCandidates signatureHeader
  if timestamp = "" ∨ signatures = [] then some false
  else
    let signedPayload := timestamp ++ "." ++ payload
    let expected := hmacSha256Hex webhookSecret signedPayload
    someMatches expected signatures

/-! ### Webhook reconciler (route.ts `POST` lines 91-161 and the Mercado
Pago webhook `POST` lines 76-150) -/

/-- The two payment gateways.  `Stripe` is the provider whose webhook also
stamps `paymentSessionId` on the order-level path. -/
inductive Provider where
  | Stripe
  | MercadoPago
deriving DecidableEq, Repr

/-- The `method` string written into appended `Payment` records. -/
def providerName : Provider → String
  | .Stripe => "Stripe"
  | .MercadoPago => "MercadoPago"

/-- The locally generated fallback payment id used when the external
identifier is empty: `` `stripe-${Date.now()}` `` resp.
`` `mercadopago-${Date.now()}` ``; `now` abstracts `Date.now()`. -/
def fallbackPaymentId : Provider → ℕ → String
  | .Stripe, now => "stripe-" ++ toString now
  | .MercadoPago, now => "mercadopago-" ++ toString now

/-- A normalized payment event, after provider-specific extraction:
`status` is the mapped payment status, `installmentNumber` the result of
`Number.parseInt` on the metadata field (`none` when it was `NaN`),
`externalPaymentId` the gateway session/payment id (`''` when absent),
`amount` the gateway amount in currency units (Stripe's `amount_total / 100`),
and `timestamp` the event's ISO date string. -/
structure PaymentEvent where
  status : PayStatus
  installmentNumber : Option ℤ
  externalPaymentId : String
  amount : ℚ
  timestamp : String
deriving DecidableEq, Repr

/-- `Number.isFinite(installmentNumber) && installmentNumber > 0`. -/
def isInstallmentPayment (e : PaymentEvent) : Bool :=
  match e.installmentNumber with
  | some n => decide (0 < n)
  | none => false

/-- The body of `installmentDetails.map(...)` in both webhook handlers
(route.ts lines 118-144): credit one payment to the installment when it is
the targeted one and the duplicate-delivery guard does not fire.  The second
component is the contribution to the handler's `didUpdate` flag. -/
def creditInstallment (prov : Provider) (now : ℕ) (installmentNumber : ℤ)
    (extId : String) (paidAmount : ℚ) (paymentDate : String)
    (inst : Installment) : Installment × Bool :=
  if inst.installmentNumber ≠ installmentNumber then (inst, false)
  else if extId ≠ "" ∧ ∃ p ∈ inst.payments, p.id = extId then (inst, false)
  else
    let newPaidAmount := inst.paidAmount + paidAmount
    let isPaid := inst.amount ≤ newPaidAmount + 1/100
    ({ inst with
        paidAmount := newPaidAmount
        status := if isPaid then .Pago else .Pendente
        paymentDate := if isPaid then some (inst.paymentDate.getD paymentDate)
                       else inst.paymentDate
        payments := inst.payments ++
          [{ id := if extId ≠ "" then extId else fallbackPaymentId prov now
             amount := paidAmount
             date := paymentDate
             method := providerName prov
             receivedBy := "Sistema" }] },
    true)

/-- The `(installment, didUpdate)` pairs produced by mapping
`creditInstallment` over the order's `installmentDetails`. -/
def webhookResults (prov : Provider) (now : ℕ) (e : PaymentEvent)
    (o : Order) : List (Installment × Bool) :=
  o.installmentDetails.map
    (creditInstallment prov now (e.installmentNumber.getD 0)
      e.externalPaymentId (max 0 e.amount) e.timestamp)

/-- One webhook reconciliation step (route.ts lines 91-161): apply a
normalized event to the order document.  On the installment-targeted `Pago`
branch the handler patches `installmentDetails` (plus `paymentStatus := Pago`
when every installment ends up `Pago`) only when some installment actually
changed; otherwise it stamps the order-level fields. -/
def applyEvent (prov : Provider) (now : ℕ) (e : PaymentEvent) (o : Order) :
    Order :=
  if isInstallmentPayment e = true ∧ e.status = .Pago then
    let results := webhookResults prov now e o
    let nextInstallments := results.map Prod.fst
    let didUpdate := results.any Prod.snd
    if didUpdate then
      let allPaid := nextInstallments ≠ [] ∧
        ∀ i ∈ nextInstallments, i.status = .Pago
      { o with
          installmentDetails := nextInstallments
          paymentStatus := if allPaid then .Pago else o.paymentStatus }
    else o
  else
    { o with
        paymentProvider := some (providerName prov)
        paymentStatus := e.status
        paymentSessionId :=
          match prov with
          | .Stripe =>
              if e.externalPaymentId ≠ "" then some e.externalPaymentId
              else o.paymentSessionId
          | .MercadoPago => o.paymentSessionId }

/-! ### Admin operations (AdminContext.tsx) -/

/-- The body of `installmentDetails.map(...)` inside
`recordInstallmentPayment` (AdminContext.tsx lines 1560-1577). -/
def recordInstallmentPaymentInst (installmentNumber : ℤ)
    (paymentWithUser : Payment) (inst : Installment) : Installment :=
  if inst.installmentNumber = installmentNumber then
    let newPaidAmount := inst.paidAmount + paymentWithUser.amount
    let isPaid := |newPaidAmount - inst.amount| < 1/100
    { inst with
        status := if isPaid then .Pago else .Pendente
        paidAmount := newPaidAmount
        payments := inst.payments ++ [paymentWithUser] }
  else inst

/-- `recordInstallmentPayment` (AdminContext.tsx lines 1550-1589): append an
admin-entered payment to the targeted installment.  Note: the Firestore patch
is `{ installmentDetails }` only — the order-level `paymentStatus` is not
written. -/
def recordInstallmentPayment (o : Order) (installmentNumber : ℤ)
    (paymentData : Payment) (userName : String) : Order :=
  let paymentWithUser := { paymentData with receivedBy := userName }
  { o with
      installmentDetails := o.installmentDetails.map
        (recordInstallmentPaymentInst installmentNumber paymentWithUser) }

/-- The body of `installmentDetails.map(...)` inside `reversePayment`
(AdminContext.tsx lines 1598-1611). -/
def reversePaymentInst (installmentNumber : ℤ) (paymentId : String)
    (inst : Installment) : Installment :=
  if inst.installmentNumber = installmentNumber then
    match inst.payments.find? (fun p => p.id = paymentId) with
    | none => inst
    | some paymentToReverse =>
        let newPayments := inst.payments.filter (fun p => p.id ≠ paymentId)
        let newPaidAmount := inst.paidAmount - paymentToReverse.amount
        { inst with
            payments := newPayments
            paidAmount := newPaidAmount
            status := if inst.amount ≤ newPaidAmount then .Pago else .Pendente }
  else inst

/-- `reversePayment` (AdminContext.tsx lines 1592-1624): remove an identified
payment from the targeted installment.  The Firestore patch is again
`{ installmentDetails }` only. -/
def reversePayment (o : Order) (installmentNumber : ℤ) (paymentId : String) :
    Order :=
  { o with
      installmentDetails := o.installmentDetails.map
        (reversePaymentInst installmentNumber paymentId) }

/-! ### Mercado Pago webhook upstream gate (webhook `POST` lines 64-73) -/

/-- Outcome of the handler's own `fetch` to the gateway's payment-lookup API:
`ok`/`status` mirror the HTTP response, `message` the parsed body's `message`
field. -/
structure UpstreamResult where
  ok : Bool
  status : ℕ
  message : Option String
deriving DecidableEq, Repr

/-- An HTTP JSON response produced by a webhook handler. -/
structure WebhookResponse where
  status : ℕ
  error : Option String
  received : Bool
deriving DecidableEq, Repr

/-- The Mercado Pago webhook's handling of its payment-lookup call (webhook
`POST` lines 70-73): when the gateway call failed, respond immediately —
with hard-coded HTTP status 500 and the gateway's `message` when present —
performing no order write; otherwise continue with the rest of the handler,
abstracted as `rest` (its response paired with the order writes it performs). -/
def mpWebhookUpstreamGate (mpRes : UpstreamResult)
    (rest : WebhookResponse × List (String × Order)) :
    WebhookResponse × List (String × Order) :=
  if mpRes.ok = false then
    ({ status := 500
       error := some (mpRes.message.getD
         ("Erro ao consultar pagamento no Mercado Pago."))
       received := false },
     [])
  else rest

/-! ### Lemmas about the signature verifier -/

theorem safeEqualsHex_eq (a b : String) :
    safeEqualsHex a b = some (decide (a = b)) := by
  by_cases h : a.utf8ByteSize = b.utf8ByteSize
  · simp [safeEqualsHex, timingSafeEqual, h]
  · have hne : a ≠ b := fun hab => h (by rw [hab])
    simp [safeEqualsHex, timingSafeEqual, h, hne]

theorem someMatches_eq_true_iff (expected : String) (l : List String) :
    someMatches expected l = some true ↔ expected ∈ l := by
  induction l with
  | nil => simp [someMatches]
  | cons s rest ih =>
      by_cases hs : s = expected
      · simp [someMatches, safeEqualsHex_eq, hs]
      · simp [someMatches, safeEqualsHex_eq, hs, ih, Ne.symm hs]

theorem someMatches_isSome (expected : String) (l : List String) :
    (someMatches expected l).isSome = true := by
  induction l with
  | nil => simp [someMatches]
  | cons s rest ih =>
      by_cases hs : s = expected
      · simp [someMatches, safeEqualsHex_eq, hs]
      · simp [someMatches, safeEqualsHex_eq, hs, ih]

/-- **C5** — Signature verification: for every raw body, signature header and
secret, the verifier accepts exactly when the header yields a non-empty
timestamp `t` and some listed `v1` candidate equals the hex HMAC-SHA256 of
`"{t}.{body}"` under the secret (the digest function itself being the
abstract parameter `hmacSha256Hex`); in every other case — header missing or
malformed (producing no timestamp) or no candidate matching — it rejects.
Consequently a tampered body under an unmodified header is rejected whenever
the old candidates do not match the tampered body's digest, and a correctly
recomputed signature over the tampered body is accepted. -/
theorem verifyStripeSignature_accepts_iff
    (hmacSha256Hex : String → String → String)
    (payload signatureHeader webhookSecret : String) :
    verifyStripeSignature hmacSha256Hex payload signatureHeader webhookSecret
        = some true ↔
      (signatureTimestamp signatureHeader ≠ "" ∧
        hmacSha256Hex webhookSecret
            (signatureTimestamp signatureHeader ++ "." ++ payload) ∈
          signatureCandidates signatureHeader) := by
  unfold verifyStripeSignature
  by_cases hcond : signatureTimestamp signatureHeader = "" ∨
      signatureCandidates signatureHeader = []
  · rcases hcond with h | h
    · simp [h]
    · simp [h]
  · push_neg at hcond
    simp [hcond.1, hcond.2, someMatches_eq_true_iff]

/-- **C10** — Totality of signature verification: the verifier always
returns a boolean (never the `none` that models a thrown exception), because
a candidate whose UTF-8 byte length differs from the expected digest's is
rejected by `safeEqualsHex`'s explicit length check, so the length-sensitive
`timingSafeEqual` primitive (which yields `none` on unequal lengths) is only
ever invoked on equal-length buffers. -/
theorem verifyStripeSignature_total
    (hmacSha256Hex : String → String → String)
    (payload signatureHeader webhookSecret : String) :
    (verifyStripeSignature hmacSha256Hex payload signatureHeader
        webhookSecret).isSome = true ∧
    (∀ a b : String, a.utf8ByteSize ≠ b.utf8ByteSize →
      timingSafeEqual a b = none ∧ safeEqualsHex a b = some false) := by
  constructor
  · unfold verifyStripeSignature
    by_cases h : signatureTimestamp signatureHeader = "" ∨
        signatureCandidates signatureHeader = []
    · simp [h]
    · simp [h, someMatches_isSome]
  · intro a b hab
    exact ⟨by simp [timingSafeEqual, hab], by simp [safeEqualsHex, hab]⟩

/-- Closed witness for `verifyStripeSignature_total`. -/
theorem verifyStripeSignature_total_witness :
    ((verifyStripeSignature (fun _ m => m) ("body") ("t=1,v1=x") ("sec")).isSome
        = true ∧
      (∀ a b : String, a.utf8ByteSize ≠ b.utf8ByteSize →
        timingSafeEqual a b = none ∧ safeEqualsHex a b = some false)) ∧
    (("a").utf8ByteSize ≠ ("bc").utf8ByteSize ∧
      timingSafeEqual ("a") ("bc") = none ∧
      safeEqualsHex ("a") ("bc") = some false) := by
  refine ⟨verifyStripeSignature_total (fun _ m => m) ("body") ("t=1,v1=x") ("sec"), ?_, ?_⟩
  · decide
  · exact (verifyStripeSignature_total (fun _ m => m) ("body") ("t=1,v1=x")
      ("sec")).2 ("a") ("bc") (by decide)

/-! ### Lemmas about the schedule builder -/

theorem scheduleLoop_length (addM : String → ℕ → String) (oid fd : String)
    (base : ℕ) : ∀ (k i rem : ℕ),
    (scheduleLoop addM oid fd base k i rem).length = k := by
  intro k
  induction k with
  | zero => intro i rem; rfl
  | succ k ih => intro i rem; simp [scheduleLoop, ih]

theorem scheduleLoop_getq (addM : String → ℕ → String) (oid fd : String)
    (base : ℕ) : ∀ (k i rem j : ℕ), j < k →
    (scheduleLoop addM oid fd base k i rem).get? j =
      some (mkScheduledInstallment addM oid fd (i + j)
        (base + if j < rem then 1 else 0)) := by
  intro k
  induction k with
  | zero => intro i rem j hj; omega
  | succ k ih =>
      intro i rem j hj
      match j with
      | 0 =>
          simp [scheduleLoop, List.get?]
      | j + 1 =>
          have hj' : j < k := by omega
          simp only [scheduleLoop, List.get?]
          rw [ih (i + 1) (rem - (if 0 < rem then 1 else 0)) j hj']
          congr 2
          · omega
          · by_cases h : 0 < rem
            · simp only [h, if_true]
              by_cases h2 : j + 1 < rem
              · rw [if_pos (by omega), if_pos h2]
              · rw [if_neg (by omega), if_neg h2]
            · have h0 : rem = 0 := by omega
              subst h0
              simp

theorem scheduleLoop_sum (addM : String → ℕ → String) (oid fd : String)
    (base : ℕ) : ∀ (k i rem : ℕ),
    ((scheduleLoop addM oid fd base k i rem).map Installment.amount).sum =
      ((k * base + min k rem : ℕ) : ℚ) / 100 := by
  intro k
  induction k with
  | zero => intro i rem; simp [scheduleLoop]
  | succ k ih =>
      intro i rem
      simp only [scheduleLoop, List.map_cons, List.sum_cons, ih,
        mkScheduledInstallment]
      rw [div_add_div_same]
      congr 1
      by_cases h : 0 < rem
      · simp only [h, if_true]
        have hnat : (base + 1) + (k * base + min k (rem - 1)) =
            (k + 1) * base + min (k + 1) rem := by
          have hmin : min (k + 1) rem = min k (rem - 1) + 1 := by omega
          rw [hmin]
          ring
        exact_mod_cast congrArg (fun n : ℕ => (n : ℚ)) hnat
      · simp only [h, if_false]
        have hrem0 : rem = 0 := by omega
        subst hrem0
        have hnat : (base + 0) + (k * base + min k 0) =
            (k + 1) * base + min (k + 1) 0 := by
          simp only [Nat.min_zero]
          ring
        exact_mod_cast congrArg (fun n : ℕ => (n : ℚ)) hnat

theorem scheduleLoop_amount_mem (addM : String → ℕ → String) (oid fd : String)
    (base : ℕ) : ∀ (k i rem : ℕ),
    ∀ x ∈ scheduleLoop addM oid fd base k i rem,
      x.amount = (base : ℚ) / 100 ∨ x.amount = ((base : ℚ) + 1) / 100 := by
  intro k
  induction k with
  | zero => intro i rem x hx; simp [scheduleLoop] at hx
  | succ k ih =>
      intro i rem x hx
      simp only [scheduleLoop, List.mem_cons] at hx
      rcases hx with hx | hx
      · subst hx
        by_cases h : 0 < rem
        · right
          simp only [mkScheduledInstallment, h, if_true]
          push_cast
          ring
        · left
          simp [mkScheduledInstallment, h]
      · exact ih _ _ x hx

/-- The source's local `totalInCents`: `Math.round(total * 100)`. -/
def totalInCents (total : ℚ) : ℕ := (jsRound (total * 100)).toNat

/-- **C4** — Rounding exactness of the schedule builder: for `total ≥ 0` and
`count` in `1..36`, `recalculateInstallments` produces `count` installments;
their amounts sum exactly to `round(total, 2)` (that is, `totalInCents`
cents); any two amounts differ by at most one cent; and the installment at
0-based position `j` carries `installmentNumber = j + 1` and amount
`base + 1` cents when `j < totalInCents mod count` (the first
`totalInCents mod count` installments absorb the extra cents, in ascending
`installmentNumber` order) and `base` cents otherwise.  The final conjunct
is the concrete scenario `total = 100.00, count = 3 ↦ [33.34, 33.33,
33.33]`. -/
theorem recalculateInstallments_exact (addM : String → ℕ → String)
    (total : ℚ) (count : ℤ) (oid fd : String)
    (h1 : 1 ≤ count) (h36 : count ≤ 36) (h0 : 0 ≤ total) :
    (recalculateInstallments addM total count oid fd).length = count.toNat ∧
    ((recalculateInstallments addM total count oid fd).map
        Installment.amount).sum = ((totalInCents total : ℕ) : ℚ) / 100 ∧
    (∀ a ∈ recalculateInstallments addM total count oid fd,
      ∀ b ∈ recalculateInstallments addM total count oid fd,
        |a.amount - b.amount| ≤ 1 / 100) ∧
    (∀ (j : ℕ) (hj : j < (recalculateInstallments addM total count oid fd).length),
      ((recalculateInstallments addM total count oid fd).get ⟨j, hj⟩).installmentNumber
          = (j : ℤ) + 1 ∧
      ((recalculateInstallments addM total count oid fd).get ⟨j, hj⟩).amount =
        ((totalInCents total / count.toNat +
            if j < totalInCents total % count.toNat then 1 else 0 : ℕ) : ℚ) / 100) ∧
    (recalculateInstallments addM 100 3 oid fd).map Installment.amount =
      [3334 / 100, 3333 / 100, 3333 / 100] := by
  have hnot : ¬(count ≤ 0 ∨ total < 0) := by
    push_neg
    exact ⟨by omega, h0⟩
  have hunfold : recalculateInstallments addM total count oid fd =
      scheduleLoop addM oid fd (totalInCents total / count.toNat)
        count.toNat 0 (totalInCents total % count.toNat) := by
    simp [recalculateInstallments, hnot, totalInCents]
  have hcount : 0 < count.toNat := by omega
  have hrem : totalInCents total % count.toNat < count.toNat :=
    Nat.mod_lt _ hcount
  have habs1 : ∀ x : ℚ, |x / 100 - (x + 1) / 100| ≤ 1 / 100 := by
    intro x
    rw [div_sub_div_same, show x - (x + 1) = -1 by ring, neg_div, abs_neg,
      abs_of_nonneg (by norm_num : (0 : ℚ) ≤ 1 / 100)]
  have habs2 : ∀ x : ℚ, |(x + 1) / 100 - x / 100| ≤ 1 / 100 := by
    intro x
    rw [div_sub_div_same, show x + 1 - x = 1 by ring,
      abs_of_nonneg (by norm_num : (0 : ℚ) ≤ 1 / 100)]
  refine ⟨?_, ?_, ?_, ?_, ?_⟩
  · rw [hunfold, scheduleLoop_length]
  · rw [hunfold, scheduleLoop_sum]
    congr 2
    have hdm := Nat.div_add_mod (totalInCents total) count.toNat
    have hmin : min count.toNat (totalInCents total % count.toNat) =
        totalInCents total % count.toNat := by omega
    rw [hmin]
    omega
  · intro a ha b hb
    rw [hunfold] at ha hb
    rcases scheduleLoop_amount_mem addM oid fd _ _ _ _ a ha with h | h <;>
      rcases scheduleLoop_amount_mem addM oid fd _ _ _ _ b hb with h2 | h2 <;>
        rw [h, h2]
    · simp
    · exact habs1 _
    · exact habs2 _
    · simp
  · intro j hj
    have hj' : j < count.toNat := by
      rw [hunfold, scheduleLoop_length] at hj
      exact hj
    have hj2 : j < (scheduleLoop addM oid fd
        (totalInCents total / count.toNat) count.toNat 0
        (totalInCents total % count.toNat)).length := by
      rw [scheduleLoop_length]
      exact hj'
    have hgetq := scheduleLoop_getq addM oid fd
      (totalInCents total / count.toNat) count.toNat 0
      (totalInCents total % count.toNat) j hj'
    have hget : (recalculateInstallments addM total count oid fd).get ⟨j, hj⟩ =
        mkScheduledInstallment addM oid fd (0 + j)
          (totalInCents total / count.toNat +
            if j < totalInCents total % count.toNat then 1 else 0) := by
      have h3 : (recalculateInstallments addM total count oid fd).get? j =
          some ((recalculateInstallments addM total count oid fd).get ⟨j, hj⟩) :=
        List.get?_eq_get hj
      have h5 : (recalculateInstallments addM total count oid fd).get? j =
          some (mkScheduledInstallment addM oid fd (0 + j)
            (totalInCents total / count.toNat +
              if j < totalInCents total % count.toNat then 1 else 0)) := by
        rw [hunfold]
        exact hgetq
      exact Option.some.inj (h3.symm.trans h5)
    rw [hget]
    constructor
    · simp [mkScheduledInstallment]
    · simp [mkScheduledInstallment]
  · have h1r : jsRound ((100 : ℚ) * 100) = 10000 := by norm_num [jsRound]
    have hunfold2 : recalculateInstallments addM 100 3 oid fd =
        scheduleLoop addM oid fd 3333 3 0 1 := by
      rw [recalculateInstallments, if_neg (by norm_num)]
      rw [h1r]
      norm_num [show Int.toNat 10000 = 10000 from rfl,
        show Int.toNat 3 = 3 from rfl]
    rw [hunfold2]
    simp only [scheduleLoop, mkScheduledInstallment, List.map_cons,
      List.map_nil]
    norm_num

/-- Closed witness for `recalculateInstallments_exact` at `total = 100`,
`count = 3`. -/
theorem recalculateInstallments_exact_witness :
    ((1 : ℤ) ≤ 3 ∧ (3 : ℤ) ≤ 36 ∧ (0 : ℚ) ≤ 100) ∧
    ((recalculateInstallments (fun _ _ => "") 100 3 ("ORD") ("D")).length
        = (3 : ℤ).toNat ∧
      ((recalculateInstallments (fun _ _ => "") 100 3 ("ORD") ("D")).map
          Installment.amount).sum = ((totalInCents 100 : ℕ) : ℚ) / 100 ∧
      (∀ a ∈ recalculateInstallments (fun _ _ => "") 100 3 ("ORD") ("D"),
        ∀ b ∈ recalculateInstallments (fun _ _ => "") 100 3 ("ORD") ("D"),
          |a.amount - b.amount| ≤ 1 / 100) ∧
      (∀ (j : ℕ)
        (hj : j < (recalculateInstallments (fun _ _ => "") 100 3 ("ORD") ("D")).length),
        ((recalculateInstallments (fun _ _ => "") 100 3 ("ORD") ("D")).get
            ⟨j, hj⟩).installmentNumber = (j : ℤ) + 1 ∧
        ((recalculateInstallments (fun _ _ => "") 100 3 ("ORD") ("D")).get
            ⟨j, hj⟩).amount =
          ((totalInCents 100 / (3 : ℤ).toNat +
              if j < totalInCents 100 % (3 : ℤ).toNat then 1 else 0 : ℕ) : ℚ) / 100) ∧
      (recalculateInstallments (fun _ _ => "") 100 3 ("ORD") ("D")).map
          Installment.amount = [3334 / 100, 3333 / 100, 3333 / 100]) :=
  ⟨⟨by decide, by decide, by decide⟩,
    recalculateInstallments_exact (fun _ _ => "") 100 3 ("ORD") ("D")
      (by decide) (by decide) (by decide)⟩

/-! ### Lemmas about the webhook reconciler -/

theorem creditInstallment_mismatch (prov : Provider) (now : ℕ) (n : ℤ)
    (x : String) (a : ℚ) (d : String) (y : Installment)
    (hn : y.installmentNumber ≠ n) :
    creditInstallment prov now n x a d y = (y, false) := by
  unfold creditInstallment
  rw [if_pos hn]

theorem creditInstallment_guarded (prov : Provider) (now : ℕ) (n : ℤ)
    (x : String) (a : ℚ) (d : String) (y : Installment)
    (hn : y.installmentNumber = n)
    (hg : x ≠ "" ∧ ∃ p ∈ y.payments, p.id = x) :
    creditInstallment prov now n x a d y = (y, false) := by
  unfold creditInstallment
  rw [if_neg (by simp [hn]), if_pos hg]

theorem creditInstallment_credit (prov : Provider) (now : ℕ) (n : ℤ)
    (x : String) (a : ℚ) (d : String) (y : Installment)
    (hn : y.installmentNumber = n)
    (hg : ¬(x ≠ "" ∧ ∃ p ∈ y.payments, p.id = x)) :
    creditInstallment prov now n x a d y =
      ({ y with
          paidAmount := y.paidAmount + a
          status := if y.amount ≤ y.paidAmount + a + 1 / 100 then .Pago
                    else .Pendente
          paymentDate := if y.amount ≤ y.paidAmount + a + 1 / 100 then
                           some (y.paymentDate.getD d)
                         else y.paymentDate
          payments := y.payments ++
            [{ id := if x ≠ "" then x else fallbackPaymentId prov now
               amount := a
               date := d
               method := providerName prov
               receivedBy := "Sistema" }] }, true) := by
  unfold creditInstallment
  rw [if_neg (by simp [hn]), if_neg hg]

theorem creditInstallment_now_irrel (prov : Provider) (now now2 : ℕ) (n : ℤ)
    (x : String) (a : ℚ) (d : String) (hx : x ≠ "") (y : Installment) :
    creditInstallment prov now2 n x a d y =
      creditInstallment prov now n x a d y := by
  by_cases h1 : y.installmentNumber ≠ n
  · rw [creditInstallment_mismatch prov now2 n x a d y h1,
      creditInstallment_mismatch prov now n x a d y h1]
  · push_neg at h1
    by_cases h2 : x ≠ "" ∧ ∃ p ∈ y.payments, p.id = x
    · rw [creditInstallment_guarded prov now2 n x a d y h1 h2,
        creditInstallment_guarded prov now n x a d y h1 h2]
    · rw [creditInstallment_credit prov now2 n x a d y h1 h2,
        creditInstallment_credit prov now n x a d y h1 h2]
      simp [hx]

theorem creditInstallment_stable (prov : Provider) (now now2 : ℕ) (n : ℤ)
    (x : String) (a : ℚ) (d : String) (hx : x ≠ "") (y : Installment) :
    creditInstallment prov now2 n x a d
        ((creditInstallment prov now n x a d y).1) =
      ((creditInstallment prov now n x a d y).1, false) := by
  by_cases h1 : y.installmentNumber ≠ n
  · rw [creditInstallment_mismatch prov now n x a d y h1]
    exact creditInstallment_mismatch prov now2 n x a d y h1
  · push_neg at h1
    by_cases h2 : x ≠ "" ∧ ∃ p ∈ y.payments, p.id = x
    · rw [creditInstallment_guarded prov now n x a d y h1 h2]
      exact creditInstallment_guarded prov now2 n x a d y h1 h2
    · rw [creditInstallment_credit prov now n x a d y h1 h2]
      apply creditInstallment_guarded
      · exact h1
      · refine ⟨hx,
          { id := if x ≠ "" then x else fallbackPaymentId prov now
            amount := a
            date := d
            method := providerName prov
            receivedBy := "Sistema" }, ?_, ?_⟩
        · exact List.mem_append_right _ (by simp)
        · simp [hx]

theorem applyEvent_pago (prov : Provider) (now : ℕ) (e : PaymentEvent)
    (o : Order) (hin : isInstallmentPayment e = true)
    (hpg : e.status = .Pago) :
    applyEvent prov now e o =
      (if (webhookResults prov now e o).any Prod.snd then
        { o with
            installmentDetails := (webhookResults prov now e o).map Prod.fst
            paymentStatus :=
              if ((webhookResults prov now e o).map Prod.fst ≠ [] ∧
                  ∀ i ∈ (webhookResults prov now e o).map Prod.fst,
                    i.status = .Pago) then .Pago
              else o.paymentStatus }
      else o) := by
  unfold applyEvent
  rw [if_pos ⟨hin, hpg⟩]

/-- **C1** (amended) — Idempotent duplicate delivery for non-empty external
payment ids: for every order and every normalized event targeting an
installment with status resolving to `Pago` whose `externalPaymentId` is
non-empty, applying the event twice (even at different `Date.now()` values)
equals applying it once; and when the incoming `externalPaymentId` already
appears among every targeted installment's recorded payments, the
application is a no-op returning the order unchanged. -/
theorem applyEvent_idempotent (prov : Provider) (now now2 : ℕ)
    (e : PaymentEvent) (o : Order)
    (hx : e.externalPaymentId ≠ "")
    (hin : isInstallmentPayment e = true)
    (hpg : e.status = .Pago) :
    applyEvent prov now2 e (applyEvent prov now e o) =
      applyEvent prov now e o ∧
    ((∀ inst ∈ o.installmentDetails,
        inst.installmentNumber = e.installmentNumber.getD 0 →
        ∃ p ∈ inst.payments, p.id = e.externalPaymentId) →
      applyEvent prov now e o = o) := by
  constructor
  · by_cases hupd : (webhookResults prov now e o).any Prod.snd = true
    · have ho1det : (applyEvent prov now e o).installmentDetails =
          (webhookResults prov now e o).map Prod.fst := by
        rw [applyEvent_pago prov now e o hin hpg, hupd]
        simp
      have hany2 : (webhookResults prov now2 e
          (applyEvent prov now e o)).any Prod.snd = false := by
        rw [List.any_eq_false]
        intro pr hpr
        rw [webhookResults] at hpr
        obtain ⟨y, hy, rfl⟩ := List.mem_map.mp hpr
        rw [ho1det] at hy
        obtain ⟨pr0, hpr0, rfl⟩ := List.mem_map.mp hy
        rw [webhookResults] at hpr0
        obtain ⟨z, hz, rfl⟩ := List.mem_map.mp hpr0
        rw [creditInstallment_stable prov now now2 (e.installmentNumber.getD 0)
          e.externalPaymentId (max 0 e.amount) e.timestamp hx z]
        simp
      rw [applyEvent_pago prov now2 e (applyEvent prov now e o) hin hpg, hany2]
      simp
    · have hany' : (webhookResults prov now e o).any Prod.snd = false := by
        simpa using hupd
      have ho1 : applyEvent prov now e o = o := by
        rw [applyEvent_pago prov now e o hin hpg, hany']
        simp
      rw [ho1]
      have hsame : webhookResults prov now2 e o =
          webhookResults prov now e o := by
        unfold webhookResults
        apply List.map_congr_left
        intro z hz
        exact creditInstallment_now_irrel prov now now2
          (e.installmentNumber.getD 0) e.externalPaymentId (max 0 e.amount)
          e.timestamp hx z
      rw [applyEvent_pago prov now2 e o hin hpg, hsame, hany']
      simp
  · intro hall
    have hany : (webhookResults prov now e o).any Prod.snd = false := by
      rw [List.any_eq_false]
      intro pr hpr
      rw [webhookResults] at hpr
      obtain ⟨inst, hinst, rfl⟩ := List.mem_map.mp hpr
      by_cases hn : inst.installmentNumber ≠ e.installmentNumber.getD 0
      · rw [creditInstallment_mismatch prov now (e.installmentNumber.getD 0)
          e.externalPaymentId (max 0 e.amount) e.timestamp inst hn]
        simp
      · push_neg at hn
        rw [creditInstallment_guarded prov now (e.installmentNumber.getD 0)
          e.externalPaymentId (max 0 e.amount) e.timestamp inst hn
          ⟨hx, hall inst hinst hn⟩]
        simp
    rw [applyEvent_pago prov now e o hin hpg, hany]
    simp

/-- A one-installment order used for concrete reconciliation scenarios. -/
def invInst : Installment :=
  { id := "i1", installmentNumber := 1, amount := 50, dueDate := "dd"
    status := .Pendente, paidAmount := 0, payments := [], paymentDate := none }

def invOrder : Order :=
  { id := "oo", date := "d0", total := 50, paymentMethod := "stripe"
    paymentStatus := .Pendente, paymentProvider := none
    paymentSessionId := none, installments := 1
    installmentDetails := [invInst] }

def dupEvent : PaymentEvent :=
  { status := .Pago, installmentNumber := some 1
    externalPaymentId := "sess_1", amount := 25, timestamp := "t1" }

/-- Closed witness for `applyEvent_idempotent`. -/
theorem applyEvent_idempotent_witness :
    applyEvent .Stripe 7 dupEvent (applyEvent .Stripe 3 dupEvent invOrder) =
      applyEvent .Stripe 3 dupEvent invOrder ∧
    ((∀ inst ∈ invOrder.installmentDetails,
        inst.installmentNumber = dupEvent.installmentNumber.getD 0 →
        ∃ p ∈ inst.payments, p.id = dupEvent.externalPaymentId) →
      applyEvent .Stripe 3 dupEvent invOrder = invOrder) :=
  applyEvent_idempotent .Stripe 3 7 dupEvent invOrder (by decide) (by decide)
    rfl

def emptyIdEvent : PaymentEvent :=
  { status := .Pago, installmentNumber := some 1
    externalPaymentId := "", amount := 25, timestamp := "t1" }

/-- **C1** (counterexample) — the claim fails as stated when the external
payment identifier is the empty string: delivering the same empty-id `Pago`
event twice does not leave the installment state of a single application
(the paid amounts differ). -/
theorem applyEvent_not_idempotent_empty_id :
    (applyEvent .Stripe 7 emptyIdEvent
        (applyEvent .Stripe 3 emptyIdEvent invOrder)).installmentDetails.map
        Installment.paidAmount ≠
      (applyEvent .Stripe 3 emptyIdEvent
        invOrder).installmentDetails.map Installment.paidAmount := by
  norm_num [applyEvent, webhookResults, creditInstallment, invOrder, invInst,
    emptyIdEvent, isInstallmentPayment]

/-- **C2** (amended) — Order-level completion invariant on the webhook path:
whenever a webhook reconciliation actually credits some installment
(`didUpdate` is set) and every installment of the resulting order has status
`Pago`, the resulting order's `paymentStatus` is `Pago`.  The admin
`recordInstallmentPayment` path does not maintain this invariant (see the
counterexample): its Firestore patch carries only `installmentDetails`. -/
theorem applyEvent_full_schedule_completion (prov : Provider) (now : ℕ)
    (e : PaymentEvent) (o : Order)
    (hin : isInstallmentPayment e = true) (hpg : e.status = .Pago)
    (hupd : (webhookResults prov now e o).any Prod.snd = true)
    (hall : ∀ i ∈ (applyEvent prov now e o).installmentDetails,
      i.status = .Pago) :
    (applyEvent prov now e o).paymentStatus = .Pago := by
  have ho1det : (applyEvent prov now e o).installmentDetails =
      (webhookResults prov now e o).map Prod.fst := by
    rw [applyEvent_pago prov now e o hin hpg, hupd]
    simp
  rw [ho1det] at hall
  have hne : (webhookResults prov now e o).map Prod.fst ≠ [] := by
    intro hempty
    have h0 : webhookResults prov now e o = [] := by
      simpa using hempty
    rw [h0] at hupd
    simp at hupd
  have hps : (applyEvent prov now e o).paymentStatus =
      (if ((webhookResults prov now e o).map Prod.fst ≠ [] ∧
          ∀ i ∈ (webhookResults prov now e o).map Prod.fst,
            i.status = .Pago) then PayStatus.Pago else o.paymentStatus) := by
    rw [applyEvent_pago prov now e o hin hpg, hupd]
    simp
  rw [hps, if_pos ⟨hne, hall⟩]

def fullPayEvent : PaymentEvent :=
  { status := .Pago, installmentNumber := some 1
    externalPaymentId := "sess_2", amount := 50, timestamp := "t2" }

/-- Closed witness for `applyEvent_full_schedule_completion`. -/
theorem applyEvent_full_schedule_completion_witness :
    (applyEvent .Stripe 11 fullPayEvent invOrder).paymentStatus = .Pago :=
  applyEvent_full_schedule_completion .Stripe 11 fullPayEvent invOrder
    (by decide) rfl
    (by norm_num [webhookResults, creditInstallment, invOrder, invInst,
      fullPayEvent])
    (by norm_num [applyEvent, webhookResults, creditInstallment, invOrder,
      invInst, fullPayEvent, isInstallmentPayment])

def adminPay50 : Payment :=
  { id := "adm1", amount := 50, date := "d1", method := "Dinheiro"
    receivedBy := "" }

/-- **C2** (counterexample) — the claim fails as stated for the admin
`recordInstallmentPayment` path: paying the only installment in full leaves
every installment `Pago` yet the order-level `paymentStatus` still
`Pendente`. -/
theorem recordInstallmentPayment_leaves_order_status :
    (recordInstallmentPayment invOrder 1 adminPay50 ("Admin")).installmentDetails.map
        Installment.status = [PayStatus.Pago] ∧
    (recordInstallmentPayment invOrder 1 adminPay50 ("Admin")).paymentStatus ≠
      PayStatus.Pago := by
  constructor
  · norm_num [recordInstallmentPayment, recordInstallmentPaymentInst,
      invOrder, invInst, adminPay50]
  · decide

/-- **C3** (amended) — Paid-threshold rules: a webhook credit marks the
installment `Pago` exactly when the new paid amount reaches the target
within the fixed 0.01 tolerance (`newPaid + 0.01 ≥ amount`) — so webhook
overpayment still yields `Pago` — while the admin
`recordInstallmentPayment` marks `Pago` exactly when the new paid amount is
within 0.01 of the target (`|newPaid − amount| < 0.01`), so an admin
overpayment beyond the tolerance yields `Pendente`. -/
theorem paid_threshold_rules :
    (∀ (prov : Provider) (now : ℕ) (n : ℤ) (x : String) (a : ℚ) (d : String)
      (inst : Installment),
      inst.installmentNumber = n →
      ¬(x ≠ "" ∧ ∃ p ∈ inst.payments, p.id = x) →
      ((creditInstallment prov now n x a d inst).1.status = .Pago ↔
        inst.amount ≤ inst.paidAmount + a + 1 / 100)) ∧
    (∀ (n : ℤ) (pay : Payment) (inst : Installment),
      inst.installmentNumber = n →
      ((recordInstallmentPaymentInst n pay inst).status = .Pago ↔
        |inst.paidAmount + pay.amount - inst.amount| < 1 / 100)) := by
  constructor
  · intro prov now n x a d inst hn hg
    rw [creditInstallment_credit prov now n x a d inst hn hg]
    by_cases h : inst.amount ≤ inst.paidAmount + a + 1 / 100
    · simp [h]
    · simp [h]
  · intro n pay inst hn
    unfold recordInstallmentPaymentInst
    rw [if_pos hn]
    by_cases h : |inst.paidAmount + pay.amount - inst.amount| < 1 / 100
    · simp [h]
    · simp [h]

def adminPay60 : Payment :=
  { id := "adm2", amount := 60, date := "d1", method := "Dinheiro"
    receivedBy := "" }

/-- **C3** (counterexample) — an admin overpayment (60 against a 50
installment) satisfies the claimed threshold `newPaid + 0.01 ≥ amount`, yet
`recordInstallmentPayment` sets the status to `Pendente`, not `Pago`. -/
theorem admin_overpayment_not_pago :
    ((50 : ℚ) ≤ 0 + 60 + 1 / 100) ∧
    (recordInstallmentPayment invOrder 1 adminPay60 ("Admin")).installmentDetails.map
        Installment.status = [PayStatus.Pendente] := by
  constructor
  · norm_num
  · norm_num [recordInstallmentPayment, recordInstallmentPaymentInst,
      invOrder, invInst, adminPay60]

theorem find_first_in_split (pid : String) (p : Payment) (hp : p.id = pid) :
    ∀ l1 : List Payment, (∀ q ∈ l1, q.id ≠ pid) → ∀ l2 : List Payment,
      (l1 ++ p :: l2).find? (fun q => q.id = pid) = some p := by
  intro l1
  induction l1 with
  | nil =>
      intro _ l2
      exact List.find?_cons_of_pos _ (by simp [hp])
  | cons q l ih =>
      intro h1 l2
      rw [List.cons_append,
        List.find?_cons_of_neg _ (by simp [h1 q (by simp)])]
      exact ih (fun r hr => h1 r (by simp [hr])) l2

/-- **C6** — Reversal semantics: `reversePayment` never touches the
order-level `paymentStatus`; and on the targeted installment, when the given
payment identifier identifies exactly one recorded payment `p` (the
installment's payments split as `l1 ++ p :: l2` with no other occurrence of
the identifier), the reversal removes exactly that record, subtracts its
amount from `paidAmount`, and sets the status to `Pago` iff the new
`paidAmount` still reaches `amount` (no tolerance), else `Pendente`. -/
theorem reversePayment_semantics (o : Order) (n : ℤ) (pid : String) :
    (reversePayment o n pid).paymentStatus = o.paymentStatus ∧
    ∀ inst ∈ o.installmentDetails, inst.installmentNumber = n →
      ∀ (l1 l2 : List Payment) (p : Payment),
        inst.payments = l1 ++ p :: l2 → p.id = pid →
        (∀ q ∈ l1, q.id ≠ pid) → (∀ q ∈ l2, q.id ≠ pid) →
        reversePaymentInst n pid inst =
          { inst with
              payments := l1 ++ l2
              paidAmount := inst.paidAmount - p.amount
              status := if inst.amount ≤ inst.paidAmount - p.amount then
                          PayStatus.Pago
                        else PayStatus.Pendente } := by
  constructor
  · rfl
  · intro inst _ hn l1 l2 p hsplit hp h1 h2
    unfold reversePaymentInst
    rw [if_pos hn, hsplit]
    rw [find_first_in_split pid p hp l1 h1 l2]
    have hfilter : (l1 ++ p :: l2).filter (fun q => q.id ≠ pid) = l1 ++ l2 := by
      rw [List.filter_append, List.filter_cons, if_neg (by simp [hp]),
        List.filter_eq_self.mpr (fun q hq => by simp [h1 q hq]),
        List.filter_eq_self.mpr (fun q hq => by simp [h2 q hq])]
    rw [hfilter]

def payA : Payment :=
  { id := "pA", amount := 25, date := "dA", method := "Pix", receivedBy := "X" }

def payB : Payment :=
  { id := "pB", amount := 25, date := "dB", method := "Pix", receivedBy := "X" }

def paidInst : Installment :=
  { id := "i1", installmentNumber := 1, amount := 50, dueDate := "dd"
    status := .Pago, paidAmount := 50, payments := [payA, payB]
    paymentDate := some "dB" }

def paidOrder : Order :=
  { id := "op", date := "d0", total := 50, paymentMethod := "Crediário"
    paymentStatus := .Pago, paymentProvider := none, paymentSessionId := none
    installments := 1, installmentDetails := [paidInst] }

/-- Closed witness for `reversePayment_semantics`: reversing the 25.00
payment `pB` from the fully-paid 50.00 installment leaves `paidAmount = 25`
and status `Pendente`, and the order-level `paymentStatus` stays `Pago`. -/
theorem reversePayment_semantics_witness :
    (reversePayment paidOrder 1 ("pB")).paymentStatus = PayStatus.Pago ∧
    (reversePaymentInst 1 ("pB") paidInst).payments = [payA] ∧
    (reversePaymentInst 1 ("pB") paidInst).paidAmount = 25 ∧
    (reversePaymentInst 1 ("pB") paidInst).status = PayStatus.Pendente := by
  have h := reversePayment_semantics paidOrder 1 ("pB")
  have h2 := h.2 paidInst (by simp [paidOrder]) (by decide) [payA] [] payB
    (by simp [paidInst]) rfl (by decide) (by decide)
  refine ⟨h.1.trans rfl, ?_, ?_, ?_⟩ <;> rw [h2]
  · simp
  · norm_num [paidInst, payB]
  · norm_num [paidInst, payB]

/-- **C7** — Order-level stamp frame: when the normalized event has no
installment target, or its status does not resolve to `Pago`, the reconciler
writes only `paymentProvider` and `paymentStatus` (set to the event's status
regardless of the order's current one), plus — for provider `Stripe` only,
when the session id is non-empty — `paymentSessionId`; `installmentDetails`
and all other order fields are unchanged. -/
theorem applyEvent_stamp_frame (prov : Provider) (now : ℕ) (e : PaymentEvent)
    (o : Order) (h : ¬(isInstallmentPayment e = true ∧ e.status = .Pago)) :
    (applyEvent prov now e o).id = o.id ∧
    (applyEvent prov now e o).date = o.date ∧
    (applyEvent prov now e o).total = o.total ∧
    (applyEvent prov now e o).paymentMethod = o.paymentMethod ∧
    (applyEvent prov now e o).installments = o.installments ∧
    (applyEvent prov now e o).installmentDetails = o.installmentDetails ∧
    (applyEvent prov now e o).paymentStatus = e.status ∧
    (applyEvent prov now e o).paymentProvider = some (providerName prov) ∧
    (applyEvent prov now e o).paymentSessionId =
      (match prov with
        | .Stripe => if e.externalPaymentId ≠ "" then some e.externalPaymentId
                     else o.paymentSessionId
        | .MercadoPago => o.paymentSessionId) := by
  have hu : applyEvent prov now e o =
      { o with
          paymentProvider := some (providerName prov)
          paymentStatus := e.status
          paymentSessionId :=
            match prov with
            | .Stripe => if e.externalPaymentId ≠ "" then
                           some e.externalPaymentId
                         else o.paymentSessionId
            | .MercadoPago => o.paymentSessionId } := by
    unfold applyEvent
    rw [if_neg h]
  rw [hu]
  exact ⟨rfl, rfl, rfl, rfl, rfl, rfl, rfl, rfl, rfl⟩

def failedEvent : PaymentEvent :=
  { status := .Falhou, installmentNumber := some 1
    externalPaymentId := "sess_9", amount := 10, timestamp := "t9" }

/-- Closed witness for `applyEvent_stamp_frame`, a `Falhou` event targeting
installment 1 under provider `Stripe`. -/
theorem applyEvent_stamp_frame_witness :
    (applyEvent .Stripe 13 failedEvent invOrder).id = invOrder.id ∧
    (applyEvent .Stripe 13 failedEvent invOrder).date = invOrder.date ∧
    (applyEvent .Stripe 13 failedEvent invOrder).total = invOrder.total ∧
    (applyEvent .Stripe 13 failedEvent invOrder).paymentMethod =
      invOrder.paymentMethod ∧
    (applyEvent .Stripe 13 failedEvent invOrder).installments =
      invOrder.installments ∧
    (applyEvent .Stripe 13 failedEvent invOrder).installmentDetails =
      invOrder.installmentDetails ∧
    (applyEvent .Stripe 13 failedEvent invOrder).paymentStatus =
      failedEvent.status ∧
    (applyEvent .Stripe 13 failedEvent invOrder).paymentProvider =
      some (providerName .Stripe) ∧
    (applyEvent .Stripe 13 failedEvent invOrder).paymentSessionId =
      (match Provider.Stripe with
        | .Stripe => if failedEvent.externalPaymentId ≠ "" then
                       some failedEvent.externalPaymentId
                     else invOrder.paymentSessionId
        | .MercadoPago => invOrder.paymentSessionId) :=
  applyEvent_stamp_frame .Stripe 13 failedEvent invOrder (by decide)

/-- **C8** (amended) — Upstream provider failure handling in the Mercado
Pago webhook: when the gateway's own payment-lookup call fails, the handler
responds with hard-coded HTTP status 500 (not the gateway's status code) and
the gateway's error message when present (a fixed message otherwise), and
performs no order write. -/
theorem mpWebhookUpstreamGate_failure (mpRes : UpstreamResult)
    (rest : WebhookResponse × List (String × Order)) (h : mpRes.ok = false) :
    (mpWebhookUpstreamGate mpRes rest).1.status = 500 ∧
    (mpWebhookUpstreamGate mpRes rest).1.error =
      some (mpRes.message.getD
        ("Erro ao consultar pagamento no Mercado Pago.")) ∧
    (mpWebhookUpstreamGate mpRes rest).2 = [] := by
  unfold mpWebhookUpstreamGate
  rw [if_pos h]
  exact ⟨rfl, rfl, rfl⟩

/-- Closed witness for `mpWebhookUpstreamGate_failure`. -/
theorem mpWebhookUpstreamGate_failure_witness :
    (mpWebhookUpstreamGate ⟨false, 404, some ("Payment not found")⟩
        (⟨200, none, true⟩, [])).1.status = 500 ∧
    (mpWebhookUpstreamGate ⟨false, 404, some ("Payment not found")⟩
        (⟨200, none, true⟩, [])).1.error =
      some ((⟨false, 404, some ("Payment not found")⟩ :
        UpstreamResult).message.getD
          ("Erro ao consultar pagamento no Mercado Pago.")) ∧
    (mpWebhookUpstreamGate ⟨false, 404, some ("Payment not found")⟩
        (⟨200, none, true⟩, [])).2 = [] :=
  mpWebhookUpstreamGate_failure ⟨false, 404, some ("Payment not found")⟩
    (⟨200, none, true⟩, []) rfl

/-- **C8** (counterexample) — the claim fails as stated: a gateway failure
with HTTP status 404 is answered by the webhook with status 500, not with
the gateway's status code. -/
theorem mpWebhook_status_not_gateway :
    (mpWebhookUpstreamGate ⟨false, 404, some ("Payment not found")⟩
        (⟨200, none, true⟩, [])).1.status = 500 ∧ (500 : ℕ) ≠ 404 := by
  constructor
  · rfl
  · decide

/-- **C9** — Empty external payment id skips the duplicate guard: an
installment-targeted `Pago` event whose external payment/session identifier
is the empty string always credits the targeted installment, appending a
fresh `Payment` whose id is the locally generated timestamp-based fallback
and adding the amount to `paidAmount` again, so applying the event twice is
not idempotent (for positive amounts). -/
theorem empty_external_id_not_idempotent (prov : Provider) (now now2 : ℕ)
    (e : PaymentEvent) (o : Order) (inst : Installment)
    (hx : e.externalPaymentId = "")
    (hin : isInstallmentPayment e = true) (hpg : e.status = .Pago)
    (hdet : o.installmentDetails = [inst])
    (htar : inst.installmentNumber = e.installmentNumber.getD 0)
    (hamt : 0 < e.amount) :
    ((creditInstallment prov now (e.installmentNumber.getD 0)
        e.externalPaymentId (max 0 e.amount) e.timestamp inst).2 = true ∧
      (creditInstallment prov now (e.installmentNumber.getD 0)
        e.externalPaymentId (max 0 e.amount) e.timestamp inst).1.payments =
        inst.payments ++
          [{ id := fallbackPaymentId prov now, amount := e.amount
             date := e.timestamp, method := providerName prov
             receivedBy := "Sistema" }] ∧
      (creditInstallment prov now (e.installmentNumber.getD 0)
        e.externalPaymentId (max 0 e.amount) e.timestamp inst).1.paidAmount =
        inst.paidAmount + e.amount) ∧
    applyEvent prov now2 e (applyEvent prov now e o) ≠
      applyEvent prov now e o := by
  have hmax : max 0 e.amount = e.amount := max_eq_right hamt.le
  have hguard : ∀ y : Installment,
      ¬(e.externalPaymentId ≠ "" ∧
        ∃ p ∈ y.payments, p.id = e.externalPaymentId) := by
    intro y hc
    exact hc.1 hx
  have hc1 := creditInstallment_credit prov now (e.installmentNumber.getD 0)
    e.externalPaymentId (max 0 e.amount) e.timestamp inst htar (hguard inst)
  refine ⟨⟨?_, ?_, ?_⟩, ?_⟩
  · rw [hc1]
  · rw [hc1]
    simp [hx, hmax]
  · rw [hc1]
    simp [hmax]
  · have hres1 : webhookResults prov now e o =
        [creditInstallment prov now (e.installmentNumber.getD 0)
          e.externalPaymentId (max 0 e.amount) e.timestamp inst] := by
      unfold webhookResults
      rw [hdet]
      rfl
    have hupd1 : (webhookResults prov now e o).any Prod.snd = true := by
      rw [hres1, hc1]
      simp
    have ho1det : (applyEvent prov now e o).installmentDetails =
        [(creditInstallment prov now (e.installmentNumber.getD 0)
          e.externalPaymentId (max 0 e.amount) e.timestamp inst).1] := by
      rw [applyEvent_pago prov now e o hin hpg, hupd1]
      simp [hres1]
    have hnum1 : (creditInstallment prov now (e.installmentNumber.getD 0)
        e.externalPaymentId (max 0 e.amount) e.timestamp inst).1.installmentNumber =
        e.installmentNumber.getD 0 := by
      rw [hc1]
      exact htar
    have hc2 := creditInstallment_credit prov now2 (e.installmentNumber.getD 0)
      e.externalPaymentId (max 0 e.amount) e.timestamp
      ((creditInstallment prov now (e.installmentNumber.getD 0)
        e.externalPaymentId (max 0 e.amount) e.timestamp inst).1)
      hnum1
      (hguard ((creditInstallment prov now (e.installmentNumber.getD 0)
        e.externalPaymentId (max 0 e.amount) e.timestamp inst).1))
    have hres2 : webhookResults prov now2 e (applyEvent prov now e o) =
        [creditInstallment prov now2 (e.installmentNumber.getD 0)
          e.externalPaymentId (max 0 e.amount) e.timestamp
          ((creditInstallment prov now (e.installmentNumber.getD 0)
            e.externalPaymentId (max 0 e.amount) e.timestamp inst).1)] := by
      unfold webhookResults
      rw [ho1det]
      rfl
    have hupd2 : (webhookResults prov now2 e
        (applyEvent prov now e o)).any Prod.snd = true := by
      rw [hres2, hc2]
      simp
    have ho2det : (applyEvent prov now2 e
        (applyEvent prov now e o)).installmentDetails =
        [(creditInstallment prov now2 (e.installmentNumber.getD 0)
          e.externalPaymentId (max 0 e.amount) e.timestamp
          ((creditInstallment prov now (e.installmentNumber.getD 0)
            e.externalPaymentId (max 0 e.amount) e.timestamp inst).1)).1] := by
      rw [applyEvent_pago prov now2 e (applyEvent prov now e o) hin hpg, hupd2]
      simp [hres2]
    intro heq
    have hdeteq := congrArg Order.installmentDetails heq
    rw [ho2det, ho1det] at hdeteq
    have hheq : (creditInstallment prov now2 (e.installmentNumber.getD 0)
        e.externalPaymentId (max 0 e.amount) e.timestamp
        ((creditInstallment prov now (e.installmentNumber.getD 0)
          e.externalPaymentId (max 0 e.amount) e.timestamp inst).1)).1 =
        (creditInstallment prov now (e.installmentNumber.getD 0)
          e.externalPaymentId (max 0 e.amount) e.timestamp inst).1 := by
      simpa using hdeteq
    have hpaid := congrArg Installment.paidAmount hheq
    rw [hc2] at hpaid
    simp only [hmax] at hpaid
    have hzero : e.amount = 0 := by
      have h0 : (creditInstallment prov now (e.installmentNumber.getD 0)
          e.externalPaymentId (max 0 e.amount) e.timestamp inst).1.paidAmount +
          e.amount =
          (creditInstallment prov now (e.installmentNumber.getD 0)
            e.externalPaymentId (max 0 e.amount) e.timestamp inst).1.paidAmount := by
        simpa using hpaid
      linarith
    exact absurd hzero (ne_of_gt hamt)

/-- Closed witness for `empty_external_id_not_idempotent`. -/
theorem empty_external_id_not_idempotent_witness :
    ((creditInstallment .Stripe 3 (emptyIdEvent.installmentNumber.getD 0)
        emptyIdEvent.externalPaymentId (max 0 emptyIdEvent.amount)
        emptyIdEvent.timestamp invInst).2 = true ∧
      (creditInstallment .Stripe 3 (emptyIdEvent.installmentNumber.getD 0)
        emptyIdEvent.externalPaymentId (max 0 emptyIdEvent.amount)
        emptyIdEvent.timestamp invInst).1.payments =
        invInst.payments ++
          [{ id := fallbackPaymentId .Stripe 3, amount := emptyIdEvent.amount
             date := emptyIdEvent.timestamp, method := providerName .Stripe
             receivedBy := "Sistema" }] ∧
      (creditInstallment .Stripe 3 (emptyIdEvent.installmentNumber.getD 0)
        emptyIdEvent.externalPaymentId (max 0 emptyIdEvent.amount)
        emptyIdEvent.timestamp invInst).1.paidAmount =
        invInst.paidAmount + emptyIdEvent.amount) ∧
    applyEvent .Stripe 7 emptyIdEvent
        (applyEvent .Stripe 3 emptyIdEvent invOrder) ≠
      applyEvent .Stripe 3 emptyIdEvent invOrder :=
  empty_external_id_not_idempotent .Stripe 3 7 emptyIdEvent invOrder invInst
    rfl (by decide) rfl rfl (by decide) (by decide)

end ADCPro